import Mathlib

/-!
Verification of the gemini-chatbot-api server (the Express handler in the
repository's main server file): file staging and MIME handling, the history
normalizer, and the `POST /api/chat` request handler. JavaScript values are
shallowly embedded: optional/possibly-undefined string fields become
`Option String` (with JavaScript falsiness of a string being "undefined,
null, or empty"), the filesystem becomes a list of staged paths, and the
fallible steps (reading the staged file, the upstream `sendMessage` call)
become `Except`-valued parameters of the handler.
-/

namespace GeminiChat

/-- JavaScript truthiness of a possibly-undefined string field:
`undefined`/`null` and the empty string are falsy. -/
def truthyStr : Option String → Bool
  | none => false
  | some s => !(s == "")

/-- The JavaScript `a || d` for a possibly-undefined string `a` and a string default `d`,
following JavaScript: a missing or empty string falls through to `d`. -/
def jsOr (a : Option String) (d : String) : String :=
  match a with
  | some s => if s == "" then d else s
  | none => d

/-- The whitespace class removed by JavaScript `String.prototype.trim`
(ASCII whitespace plus NBSP and BOM; only these occur in this development). -/
def isJsWs (c : Char) : Bool :=
  c == ' ' || c == '\t' || c == '\n' || c == '\r' || c == '\x0b' ||
  c == '\x0c' || c == ' ' || c == '﻿'

/-- Trim on the character list: drop leading and trailing whitespace. -/
def trimChars (l : List Char) : List Char :=
  ((l.dropWhile isJsWs).reverse.dropWhile isJsWs).reverse

/-- JavaScript `String.prototype.trim`. -/
def jsTrim (s : String) : String :=
  ⟨trimChars s.data⟩

/-- The `startsWith` test on character lists (JavaScript `String.prototype.startsWith`
with a single argument), embedded structurally so that it evaluates in the
kernel. -/
def startsWithChars : List Char → List Char → Bool
  | _, [] => true
  | [], _ :: _ => false
  | c :: cs, p :: ps => c == p && startsWithChars cs ps

/-- JavaScript `s.startsWith(p)`. -/
def jsStartsWith (s p : String) : Bool :=
  startsWithChars s.data p.data

/-! ## File staging unit -/

/-- The `allowedTypes` array of the multer `fileFilter`. -/
def allowedTypes : List String := ["audio/", "application/pdf"]

/-- The multer `fileFilter` acceptance predicate:
`allowedTypes.some(type => file.mimetype.startsWith(type))`. -/
def fileFilterAccepts (mimetype : String) : Bool :=
  allowedTypes.any (fun t => jsStartsWith mimetype t)

/-- Modelled from the spec (section 4.1) for comparison with the source's
`fileFilterAccepts`: "MIME type must start with `audio/` or equal
`application/pdf`". -/
def specAccepts (mimetype : String) : Bool :=
  jsStartsWith mimetype "audio/" || mimetype == "application/pdf"

/-- JavaScript `split('.')` on a character list: the list of segments
between dots ( `"".split('.')` is `[""]`, a trailing dot yields a trailing
empty segment). -/
def splitOnDot : List Char → List (List Char)
  | [] => [[]]
  | c :: cs =>
    let r := splitOnDot cs
    if c = '.' then [] :: r
    else
      match r with
      | [] => [[c]]
      | h :: t => (c :: h) :: t

/-- The source's `filePath.split('.').pop().toLowerCase()`: the lowercased text after the
last dot of the path (the whole path when it has no dot). -/
def extOf (filePath : String) : String :=
  ⟨((splitOnDot filePath.data).getLastD []).map Char.toLower⟩

/-- The `getMimeType` helper: infer the transmission MIME type from the
file extension. -/
def getMimeType (filePath : String) : String :=
  let ext := extOf filePath
  if ext == "pdf" then "application/pdf"
  else if ["mp3", "wav", "m4a", "ogg"].contains ext then
    "audio/" ++ (if ext == "m4a" then "mp4" else ext)
  else "application/octet-stream"

/-- Modelled from the spec (section 4.1): the extension-to-MIME mapping as
the spec states it, for comparison with `getMimeType`:
pdf maps to application/pdf; mp3, wav, ogg map to audio/ext; m4a maps to
audio/mp4; every other extension maps to application/octet-stream. -/
def specMimeOfExt (ext : String) : String :=
  if ext == "pdf" then "application/pdf"
  else if ext == "mp3" || ext == "wav" || ext == "ogg" then "audio/" ++ ext
  else if ext == "m4a" then "audio/mp4"
  else "application/octet-stream"

/-! ## History normalizer -/

/-- Attachment metadata carried by a raw history turn (`msg.file`);
only its `name` is read by the normalizer, and the name itself may be
missing. -/
structure FileMeta where
  name : Option String
deriving DecidableEq, Repr

/-- A raw client-supplied history turn: every field may be absent. -/
structure Msg where
  role : Option String
  text : Option String
  message : Option String
  file : Option FileMeta
deriving DecidableEq, Repr

/-- One part of a normalized history entry: text only, never bytes. -/
structure GPart where
  text : String
deriving DecidableEq, Repr

/-- A normalized history entry in the shape the upstream client expects. -/
structure GMsg where
  role : String
  parts : List GPart
deriving DecidableEq, Repr

/-- The body of `history.map(msg => ...)`: a `user` turn with an attachment
gets the `"<text> [File: <name or 'uploaded file'>]"` placeholder, trimmed;
`user`/`model` turns without one take `msg.text || msg.message || ''`;
any other role yields `null` (here `none`). -/
def normalizeTurn (m : Msg) : Option GMsg :=
  if m.role = some "user" then
    let text :=
      match m.file with
      | some f =>
        jsTrim (jsOr m.text "" ++ " [File: " ++ jsOr f.name "uploaded file" ++ "]")
      | none => jsOr m.text (jsOr m.message "")
    some { role := "user", parts := [{ text := text }] }
  else if m.role = some "model" then
    some { role := "model", parts := [{ text := jsOr m.text (jsOr m.message "") }] }
  else
    none

/-- The `.filter(msg => msg !== null && msg.parts[0].text.length > 0)`
predicate applied to the mapped turns. -/
def keepMsg : Option GMsg → Bool
  | none => false
  | some g => decide ((g.parts.headD { text := "" }).text.length > 0)

/-- The `chatHistory` computation: map each raw turn through the
normalizer, keep the non-null entries whose text is non-empty. -/
def chatHistory (history : List Msg) : List GMsg :=
  ((history.map normalizeTurn).filter keepMsg).filterMap id

/-! ## Chat request handler -/

/-- The staged upload (`req.file`); the handler only reads its path. -/
structure UpFile where
  path : String
deriving DecidableEq, Repr

/-- A `POST /api/chat` request after body parsing and multer staging:
optional text message, optional staged file, optional parsed history. -/
structure ChatReq where
  message : Option String
  file : Option UpFile
  history : Option (List Msg)
deriving DecidableEq, Repr

/-- A part of the message sent upstream: inline base64 data with a MIME
type, or plain text. -/
inductive SPart where
  | inlineData (data : String) (mimeType : String)
  | text (s : String)
deriving DecidableEq, Repr

/-- One recorded upstream `sendMessage` call: the history the chat session
was seeded with (absent when empty) and the composed parts. -/
structure Sent where
  historyCfg : Option (List GMsg)
  parts : List SPart
deriving DecidableEq, Repr

/-- The JSON body of the handler's response. -/
inductive RespBody where
  | missingInput
  | ok (message : String)
  | failure (details : String)
deriving DecidableEq, Repr

/-- The observable outcome of one request: HTTP status, body, final
filesystem state, and the upstream calls made. -/
structure HOut where
  status : Nat
  body : RespBody
  fsFinal : List String
  calls : List Sent
deriving DecidableEq, Repr

/-- The guard `history && Array.isArray(history) && history.length > 0` guarding the
`chatHistory` computation: absent or empty history normalizes to `[]`. -/
def histEntries (h : Option (List Msg)) : List GMsg :=
  match h with
  | some l => if l.length > 0 then chatHistory l else []
  | none => []

/-- The `chatConfig` construction: the history field is set only when the
normalized history is non-empty. -/
def histConfig (h : Option (List Msg)) : Option (List GMsg) :=
  let ch := histEntries h
  if ch.length > 0 then some ch else none

/-- The cleanup step `if (file && fs.existsSync(file.path)) fs.unlinkSync(file.path)`:
remove the path from the filesystem when present. -/
def unlinkIfExists (fs : List String) (p : String) : List String :=
  if p ∈ fs then fs.filter (fun q => q ≠ p) else fs

/-- The default prompt substituted when only a file was sent. -/
def defaultPrompt : String := "Please analyze this file and provide insights."

/-- The `POST /api/chat` handler body (after multer staging), parametrized
by the fallible steps: `read` is `fileToBase64` (a `readFileSync` that may
throw) and `send` is the upstream `chat.sendMessage` round trip (which may
throw). Returns the response, the final filesystem, and the upstream calls
made; the `catch` block's best-effort unlink is applied on every failure
path. -/
def runChat (read : String → Except String String)
    (send : Option (List GMsg) → List SPart → Except String String)
    (req : ChatReq) (fs0 : List String) : HOut :=
  if !truthyStr req.message && req.file.isNone then
    { status := 400, body := .missingInput, fsFinal := fs0, calls := [] }
  else
    let histCfg := histConfig req.history
    match req.file with
    | some f =>
      match read f.path with
      | .error e =>
        { status := 500, body := .failure e,
          fsFinal := unlinkIfExists fs0 f.path, calls := [] }
      | .ok data =>
        let parts :=
          SPart.inlineData data (getMimeType f.path) ::
            (if truthyStr req.message then [SPart.text (req.message.getD "")]
             else [SPart.text defaultPrompt])
        match send histCfg parts with
        | .error e =>
          { status := 500, body := .failure e,
            fsFinal := unlinkIfExists fs0 f.path,
            calls := [{ historyCfg := histCfg, parts := parts }] }
        | .ok t =>
          { status := 200, body := .ok t,
            fsFinal := unlinkIfExists fs0 f.path,
            calls := [{ historyCfg := histCfg, parts := parts }] }
    | none =>
      let parts := if truthyStr req.message then [SPart.text (req.message.getD "")] else []
      match send histCfg parts with
      | .error e =>
        { status := 500, body := .failure e, fsFinal := fs0,
          calls := [{ historyCfg := histCfg, parts := parts }] }
      | .ok t =>
        { status := 200, body := .ok t, fsFinal := fs0,
          calls := [{ historyCfg := histCfg, parts := parts }] }

/-- Multer staging followed by the handler: when the request carries a
file, its path is written to the upload directory before the handler body
runs. -/
def handleRequest (read : String → Except String String)
    (send : Option (List GMsg) → List SPart → Except String String)
    (req : ChatReq) (fs0 : List String) : HOut :=
  let fsStaged := match req.file with
    | some f => f.path :: fs0
    | none => fs0
  runChat read send req fsStaged

/-! ## Views of the normalizer used to state the claims -/

/-- A raw turn survives the role dispatch of the normalizer: its role is
`user` or `model`. -/
def keptRole (m : Msg) : Bool :=
  decide (m.role = some "user") || decide (m.role = some "model")

/-- The text the normalizer derives for a turn (meaningful when
`keptRole` holds): the file placeholder for an attachment-bearing `user`
turn, otherwise `msg.text || msg.message || ''`. -/
def turnText (m : Msg) : String :=
  if m.role = some "user" then
    match m.file with
    | some f => jsTrim (jsOr m.text "" ++ " [File: " ++ jsOr f.name "uploaded file" ++ "]")
    | none => jsOr m.text (jsOr m.message "")
  else jsOr m.text (jsOr m.message "")

/-- The role string of the normalized entry for a turn with a kept role. -/
def roleName (m : Msg) : String :=
  if m.role = some "user" then "user" else "model"

/-- The canonical re-embedding of a normalized entry as a raw turn (the
normalized entry keeps its text inside `parts`, so reading it back as a
`{role, text}` turn places that text in the `text` field). -/
def toRaw (g : GMsg) : Msg :=
  { role := some g.role, text := some ((g.parts.headD { text := "" }).text),
    message := none, file := none }

/-! ## Basic evaluation facts (sanity checks for the embedding) -/

example : extOf "talk.PDF" = "pdf" := by decide
example : getMimeType "talk.PDF" = "application/pdf" := by decide
example : getMimeType "a.b.M4A" = "audio/mp4" := by decide
example : getMimeType "notes.txt" = "application/octet-stream" := by decide
example : getMimeType "noext" = "application/octet-stream" := by decide
example : jsTrim "  hi ]  " = "hi ]" := by decide
example : fileFilterAccepts "audio/mpeg" = true := by decide
example : fileFilterAccepts "text/plain" = false := by decide
example : fileFilterAccepts "application/pdfx" = true := by decide
example : specAccepts "application/pdfx" = false := by decide

/-! ## Helper lemmas -/

/-- After `unlinkIfExists fs p`, the path `p` is never present. -/
theorem not_mem_unlinkIfExists (fs : List String) (p : String) :
    p ∉ unlinkIfExists fs p := by
  unfold unlinkIfExists
  by_cases h : p ∈ fs
  · simp [h]
  · simp [h]

/-- If trimming leaves nothing, every character was whitespace. -/
theorem all_ws_of_trimChars_eq_nil {l : List Char} (h : trimChars l = []) :
    ∀ c ∈ l, isJsWs c := by
  unfold trimChars at h
  rw [List.reverse_eq_nil_iff, List.dropWhile_eq_nil_iff] at h
  intro c hc
  by_cases hw : isJsWs c
  · exact hw
  · exfalso
    have hsplit := List.takeWhile_append_dropWhile (p := isJsWs) (l := l)
    rw [← hsplit] at hc
    rcases List.mem_append.mp hc with h1 | h2
    · exact hw (List.mem_takeWhile_imp h1)
    · exact hw (h c (List.mem_reverse.mpr h2))

/-- A list holding a non-whitespace character does not trim to nothing. -/
theorem trimChars_ne_nil_of_mem {l : List Char} {c : Char} (hc : c ∈ l)
    (hw : isJsWs c = false) : trimChars l ≠ [] := by
  intro h
  have := all_ws_of_trimChars_eq_nil h c hc
  simp [hw] at this

/-- A string holding a non-whitespace character trims to a non-empty
string. -/
theorem jsTrim_length_pos {s : String} {c : Char} (hc : c ∈ s.data)
    (hw : isJsWs c = false) : 0 < (jsTrim s).length := by
  have hne : trimChars s.data ≠ [] := trimChars_ne_nil_of_mem hc hw
  show 0 < (trimChars s.data).length
  exact List.length_pos.mpr hne

/-- A non-empty string is not the empty string. -/
theorem length_pos_ne_empty {s : String} (h : 0 < s.length) : ¬ s = "" := by
  intro he
  subst he
  simp at h

/-- The function `normalizeTurn` through the claim-level views: an entry for a kept
role, `none` otherwise. -/
theorem normalizeTurn_eq (m : Msg) :
    normalizeTurn m =
      if keptRole m then some { role := roleName m, parts := [{ text := turnText m }] }
      else none := by
  unfold normalizeTurn keptRole roleName turnText
  by_cases h1 : m.role = some "user" <;> by_cases h2 : m.role = some "model" <;>
    simp [h1, h2]

/-- The normalizer `chatHistory` unfolds one turn at a time. -/
theorem chatHistory_cons (m : Msg) (t : List Msg) :
    chatHistory (m :: t) =
      (if keepMsg (normalizeTurn m) then (normalizeTurn m).toList else []) ++ chatHistory t := by
  unfold chatHistory
  rw [List.map_cons, List.filter_cons]
  cases hn : normalizeTurn m with
  | none => simp [keepMsg]
  | some g => by_cases hk : keepMsg (some g) <;> simp [hk]

/-- Every entry of a normalized history has a `user` or `model` role and a
single non-empty text part. -/
theorem chatHistory_entry_shape (hist : List Msg) :
    ∀ g ∈ chatHistory hist,
      (g.role = "user" ∨ g.role = "model") ∧
        ∃ s, g.parts = [{ text := s }] ∧ 0 < s.length := by
  induction hist with
  | nil => simp [chatHistory]
  | cons m t ih =>
    intro g hg
    rw [chatHistory_cons] at hg
    rcases List.mem_append.mp hg with h1 | h2
    · by_cases hk : keepMsg (normalizeTurn m)
      · rw [if_pos hk] at h1
        rw [normalizeTurn_eq] at h1 hk
        by_cases hr : keptRole m
        · rw [if_pos hr] at h1 hk
          simp only [Option.toList_some, List.mem_singleton] at h1
          subst h1
          refine ⟨?_, turnText m, rfl, ?_⟩
          · unfold roleName
            by_cases h : m.role = some "user" <;> simp [h]
          · simpa [keepMsg] using hk
        · rw [if_neg hr] at hk
          simp [keepMsg] at hk
      · rw [if_neg hk] at h1
        simp at h1
    · exact ih g h2

/-- Re-normalizing entries that already have the normalized shape is the
identity. -/
theorem chatHistory_map_toRaw (l : List GMsg)
    (h : ∀ g ∈ l, (g.role = "user" ∨ g.role = "model") ∧
        ∃ s, g.parts = [{ text := s }] ∧ 0 < s.length) :
    chatHistory (l.map toRaw) = l := by
  induction l with
  | nil => rfl
  | cons g t ih =>
    obtain ⟨hrole, s, hparts, hlen⟩ := h g (List.mem_cons_self _ _)
    have hne : (s == "") = false := by
      simpa using length_pos_ne_empty hlen
    have hng : normalizeTurn (toRaw g) = some g := by
      obtain ⟨r, p⟩ := g
      simp only [GMsg.mk.injEq] at hparts ⊢
      rcases hrole with hu | hm <;>
        simp_all [normalizeTurn, toRaw, jsOr, hne]
    rw [List.map_cons, chatHistory_cons, hng]
    have hkeep : keepMsg (some g) = true := by
      simp [keepMsg, hparts, hlen]
    rw [hkeep]
    simp only [if_true, Option.toList_some, List.singleton_append]
    rw [ih (fun g' hg' => h g' (List.mem_cons_of_mem _ hg'))]

/-! ## Claims -/

/-- C1: a `POST /api/chat` request with neither message nor attachment is
answered with status 400 and the missing-input error body; no upstream
call is made and the filesystem is untouched (nothing is staged, nothing
deleted). -/
theorem chat_missing_input_rejected (hist : Option (List Msg)) (fs0 : List String)
    (read : String → Except String String)
    (send : Option (List GMsg) → List SPart → Except String String) :
    handleRequest read send { message := none, file := none, history := hist } fs0 =
      { status := 400, body := .missingInput, fsFinal := fs0, calls := [] } := by
  rfl

/-- C9: a request whose message is present but equal to the empty string
and which carries no attachment is rejected with status 400, exactly as if
the message were absent. -/
theorem empty_message_rejected (hist : Option (List Msg)) (fs0 : List String)
    (read : String → Except String String)
    (send : Option (List GMsg) → List SPart → Except String String) :
    (handleRequest read send { message := some "", file := none, history := hist } fs0).status
        = 400 ∧
      handleRequest read send { message := some "", file := none, history := hist } fs0 =
        handleRequest read send { message := none, file := none, history := hist } fs0 := by
  exact ⟨rfl, rfl⟩

/-- C2: for every request that carries an attachment, the staged file's
path is absent from the filesystem when the handler returns, whatever the
message, the history, and the outcomes of the file read and of the
upstream call (success or failure). -/
theorem chat_staged_file_cleanup (m : Option String) (hist : Option (List Msg))
    (f : UpFile) (fs0 : List String)
    (read : String → Except String String)
    (send : Option (List GMsg) → List SPart → Except String String) :
    f.path ∉
      (handleRequest read send { message := m, file := some f, history := hist } fs0).fsFinal := by
  unfold handleRequest runChat
  have hcond : (!truthyStr m && (some f : Option UpFile).isNone) = false := by
    simp [Option.isNone]
  simp only [hcond, Bool.false_eq_true, if_false]
  split
  · simpa using not_mem_unlinkIfExists (f.path :: fs0) f.path
  · split <;> simpa using not_mem_unlinkIfExists (f.path :: fs0) f.path

/-- Witness for C2 at a concrete request: an attachment-only request whose
read and upstream call both succeed leaves no staged file behind. -/
theorem chat_staged_file_cleanup_witness :
    "uploads/file-7-9-x.pdf" ∉
      (handleRequest (fun _ => Except.ok "QUJD") (fun _ _ => Except.ok "done")
        { message := none, file := some { path := "uploads/file-7-9-x.pdf" }, history := none }
        []).fsFinal :=
  chat_staged_file_cleanup none none { path := "uploads/file-7-9-x.pdf" } []
    (fun _ => Except.ok "QUJD") (fun _ _ => Except.ok "done")

/-- C4 counterexample: the declared MIME type `"application/pdfx"` is
accepted by the multer `fileFilter`, although it neither starts with
`audio/` nor equals `application/pdf`; acceptance is not exactly the set
the claim states. -/
theorem fileFilter_equality_claim_false :
    fileFilterAccepts "application/pdfx" = true ∧
      specAccepts "application/pdfx" = false := by
  decide

/-- C4 (amended): an uploaded file is accepted by the `fileFilter` exactly
when its declared MIME type starts with `audio/` or starts with
`application/pdf` (the filter tests both allowed types with `startsWith`,
so equality with `application/pdf` is not required). -/
theorem fileFilter_startsWith_characterization (m : String) :
    fileFilterAccepts m = (jsStartsWith m "audio/" || jsStartsWith m "application/pdf") := by
  simp [fileFilterAccepts, allowedTypes]

/-- C6: the MIME type used for transmission is derived from the lowercased
file extension by exactly the mapping the spec states (pdf to
application/pdf; mp3, wav, ogg to audio/ext; m4a to audio/mp4; everything
else to application/octet-stream), and the derivation is
case-insensitive. -/
theorem mime_from_extension :
    (∀ filePath : String, getMimeType filePath = specMimeOfExt (extOf filePath)) ∧
      getMimeType "talk.PDF" = "application/pdf" ∧
      getMimeType "voice.M4A" = "audio/mp4" ∧
      getMimeType "archive.tar.gz" = "application/octet-stream" := by
  refine ⟨?_, by decide, by decide, by decide⟩
  intro filePath
  unfold getMimeType specMimeOfExt
  generalize extOf filePath = e
  by_cases h1 : e = "pdf" <;>
    by_cases h2 : e = "mp3" <;>
      by_cases h3 : e = "wav" <;>
        by_cases h4 : e = "m4a" <;>
          by_cases h5 : e = "ogg" <;>
            simp_all [List.contains]

/-- C3: every `user` history turn carrying an attachment normalizes to the
trimmed text `"<original text> [File: <name or 'uploaded file'>]"` with no
attachment bytes (the normalized entry holds text parts only); in
particular text `"summarize"` with attachment name `"report.pdf"` gives
`"summarize [File: report.pdf]"`. -/
theorem user_file_turn_normalization :
    (∀ (t msgF : Option String) (fa : FileMeta),
      normalizeTurn { role := some "user", text := t, message := msgF, file := some fa } =
        some { role := "user",
               parts := [{ text := jsTrim (jsOr t "" ++ " [File: " ++
                             jsOr fa.name "uploaded file" ++ "]") }] }) ∧
      normalizeTurn { role := some "user", text := some "summarize", message := none, file := some { name := some "report.pdf" } } =
        some { role := "user", parts := [{ text := "summarize [File: report.pdf]" }] } := by
  refine ⟨?_, by decide⟩
  intro t msgF fa
  simp [normalizeTurn]

/-- C10: a `user` turn carrying an attachment always derives non-empty
text, so it is never removed by the empty-text filter; with both the text
and the attachment name missing the derived text is
`"[File: uploaded file]"`. -/
theorem file_turn_never_dropped :
    (∀ (t msgF : Option String) (fa : FileMeta),
      keepMsg (normalizeTurn
        { role := some "user", text := t, message := msgF, file := some fa }) = true) ∧
      normalizeTurn { role := some "user", text := none, message := none, file := some { name := none } } =
        some { role := "user", parts := [{ text := "[File: uploaded file]" }] } := by
  refine ⟨?_, by decide⟩
  intro t msgF fa
  have hmem : ']' ∈ (jsOr t "" ++ " [File: " ++ jsOr fa.name "uploaded file" ++ "]").data := by
    simp
  have hpos := jsTrim_length_pos hmem (by decide)
  simp [normalizeTurn, keepMsg, hpos]

/-- C5: when the request carries an attachment and the staged file read
succeeds, the upstream call is made with the inline binary-plus-MIME part
first and a single trailing text part: the message when one is present,
the default analysis prompt otherwise. -/
theorem parts_composition (m : Option String) (hist : Option (List Msg)) (f : UpFile)
    (fs0 : List String) (data : String)
    (read : String → Except String String)
    (send : Option (List GMsg) → List SPart → Except String String)
    (hread : read f.path = .ok data) :
    (handleRequest read send { message := m, file := some f, history := hist } fs0).calls =
      [{ historyCfg := histConfig hist,
         parts := [SPart.inlineData data (getMimeType f.path),
                   SPart.text (if truthyStr m then m.getD "" else defaultPrompt)] }] := by
  unfold handleRequest runChat
  have hcond : (!truthyStr m && (some f : Option UpFile).isNone) = false := by
    simp [Option.isNone]
  simp only [hcond, Bool.false_eq_true, if_false, hread]
  cases htm : truthyStr m <;> simp only [htm, Bool.false_eq_true, if_false, if_true] <;>
    split <;> rfl

/-- Witness for C5 at a concrete request: attachment only, no message, a
successful read and a successful upstream call. -/
theorem parts_composition_witness :
    (handleRequest (fun _ => Except.ok "QUJD") (fun _ _ => Except.ok "done")
        { message := none, file := some { path := "uploads/file-1-2-a.pdf" }, history := none }
        []).calls =
      [{ historyCfg := histConfig none,
         parts := [SPart.inlineData "QUJD" (getMimeType "uploads/file-1-2-a.pdf"),
                   SPart.text (if truthyStr none then (none : Option String).getD ""
                     else defaultPrompt)] }] :=
  parts_composition none none { path := "uploads/file-1-2-a.pdf" } [] "QUJD"
    (fun _ => Except.ok "QUJD") (fun _ _ => Except.ok "done") rfl

/-- C7: normalization keeps exactly the turns with role `user` or `model`
whose derived text is non-empty, maps each kept turn to its normalized
entry in place, and so preserves the relative order; a `system` turn, for
example, is dropped. -/
theorem history_drop_and_order :
    (∀ hist : List Msg,
      chatHistory hist =
        (hist.filter (fun m => keptRole m && decide (0 < (turnText m).length))).map
          (fun m => { role := roleName m, parts := [{ text := turnText m }] })) ∧
      chatHistory [{ role := some "system", text := some "be nice", message := none, file := none }] = [] := by
  refine ⟨?_, by decide⟩
  intro hist
  induction hist with
  | nil => rfl
  | cons m t ih =>
    rw [chatHistory_cons, List.filter_cons, normalizeTurn_eq, ih]
    by_cases hr : keptRole m
    · by_cases ht : 0 < (turnText m).length
      · simp [hr, ht, keepMsg]
      · simp [hr, ht, keepMsg]
    · simp [hr, keepMsg]

/-- C8: normalization is idempotent on already-normalized input: for a
plain `{role, text}` history (no attachment, no alternate message field)
with roles in `user`/`model` and non-empty text, normalizing the
normalized output again (its entries read back as raw turns) equals
normalizing once. -/
theorem normalize_idempotent (hist : List Msg)
    (_h : ∀ m ∈ hist, m.file = none ∧ m.message = none ∧
        (m.role = some "user" ∨ m.role = some "model") ∧
        ∃ s, m.text = some s ∧ s ≠ "") :
    chatHistory ((chatHistory hist).map toRaw) = chatHistory hist :=
  chatHistory_map_toRaw _ (chatHistory_entry_shape hist)

/-- Witness for C8 on a concrete plain two-turn history. -/
theorem normalize_idempotent_witness :
    chatHistory ((chatHistory
        [{ role := some "user", text := some "hi", message := none, file := none },
         { role := some "model", text := some "hello there", message := none, file := none }]).map
        toRaw) =
      chatHistory
        [{ role := some "user", text := some "hi", message := none, file := none },
         { role := some "model", text := some "hello there", message := none, file := none }] :=
  normalize_idempotent _ (by
    intro m hm
    simp only [List.mem_cons, List.not_mem_nil, or_false] at hm
    rcases hm with rfl | rfl
    · exact ⟨rfl, rfl, Or.inl rfl, "hi", rfl, by decide⟩
    · exact ⟨rfl, rfl, Or.inr rfl, "hello there", rfl, by decide⟩)

end GeminiChat
